import Mathlib

/-!
Shallow embedding of dtuf's CLI dispatcher (src/dtuf/main.py) together with a
spec-modelled fragment of the consumer-side trust verifier.  The dispatcher
`doit`/`_doit` is embedded as a function from the parsed arguments, the process
environment and a world of collaborator oracles to a trace of observable events
(repository-object method calls, printed lines, token assignment, blob writes)
plus an optional abnormal termination (argparse `parser.error`, i.e. SystemExit,
or a propagated Python exception).
-/

namespace Dtuf

/-- The process environment: `environ.get(k)` is `env k`; `environ[k]` is a
lookup that raises `KeyError` when `env k = none`. -/
abbrev Env := String → Option String

/-- A metadata-expiry value as far as the CLI observes it: line 255/298 only
call `.isoformat()` on it, so the model carries that rendering. -/
structure Expiry where
  isoformat : String
deriving DecidableEq

/-- One method call on a repository object (`dtuf_base`, `dtuf_master` or
`dtuf_copy`), with the arguments the CLI passes (main.py lines 184-302).
Progress callbacks are recorded by presence (`true` = a callback was passed,
`false` = `None`). -/
inductive Call where
  | listRepos
  | authenticate (username password : String) (actions : List String)
  | createRootKey (rootPw : Option String)
  | createMetadataKeys (targetsPw snapshotPw timestampPw : Option String)
  | createMetadata (rootPw targetsPw snapshotPw timestampPw : Option String)
  | resetKeys (rootPw targetsPw snapshotPw timestampPw : Option String)
  | pushTarget (target : String) (sources : List String) (progress : Bool)
  | delTarget (target : String)
  | pushMetadata (targetsPw snapshotPw timestampPw : Option String) (progress : Bool)
  | masterListTargets
  | masterGetExpirations
  | pullMetadata (rootPublicKey : Option String) (progress : Bool)
  | pullTarget (target : String)
  | blobSizes (target : String)
  | checkTarget (target : String) (files : List String)
  | copyListTargets
  | copyGetExpirations
deriving DecidableEq

/-- Observable events of a `doit` run: repository-object calls, lines printed
to stdout, the `dtuf_obj.token = token` attribute assignment (line 196), and
`dtuf._write_with_progress` writing a blob to stdout (line 276). -/
inductive Event where
  | call (c : Call)
  | print (s : String)
  | setToken (t : String)
  | writeBlob (dgst : String) (progress : Bool)
deriving DecidableEq

/-- An error stored per mirror inside `tuf.NoWorkingMirrorError.mirror_errors`;
the handler at lines 310-312 only distinguishes `DXFUnauthorizedError` from
everything else. -/
inductive MirrorErr where
  | unauthorized
  | other (s : String)
deriving DecidableEq

/-- A Python exception escaping a repository call, as classified by the
`try/except` at main.py lines 304-313. -/
inductive Exc where
  | unauthorized
  | noWorkingMirror (mirrorErrors : List MirrorErr)
  | other (s : String)
deriving DecidableEq

/-- Abnormal termination of `_doit`: an argparse `parser.error` (which raises
SystemExit and is not caught by lines 304-313) or a raised exception. -/
inductive Err where
  | parser (msg : String)
  | exc (e : Exc)
deriving DecidableEq

/-- Result of running `_doit`: the event trace produced before returning or
aborting, and the abnormal termination if any. -/
structure DoitRes where
  trace : List Event
  err : Option Err
deriving DecidableEq

/-- Oracles for everything outside the dispatcher: terminal state, stdin, the
file system, the repository objects' return values, and which calls raise. -/
structure World where
  stderrAtty : Bool
  stdin : String
  fileContents : String → String
  excAt : Call → Option Exc
  authToken : String
  masterTargets : List String
  masterExpirations : List (String × Expiry)
  pullMetadataNames : List String
  pullTargetBlobs : String → List (String × Nat)
  copyBlobSizes : String → List Nat
  copyTargets : List String
  copyExpirations : List (String × Expiry)
  listReposNames : List String

/-- The parsed command line: subcommand, repo, and trailing `args` list. -/
structure Args where
  op : String
  repo : String
  args : List String

/-- The subcommands routed to a `DTufMaster` object (main.py lines 154-163). -/
def masterOps : List String :=
  ["auth", "create-root-key", "create-metadata-keys", "create-metadata",
   "reset-keys", "push-target", "del-target", "push-metadata",
   "list-master-targets", "get-master-expirations"]

/-- Which repository object `doit` constructs for a subcommand. -/
inductive ObjKind where
  | base
  | master
  | copy
deriving DecidableEq

/-- Object construction dispatch of main.py lines 148-182: `list-repos` gets a
`DTufBase`, the ten master subcommands a `DTufMaster`, everything else a
`DTufCopy`. -/
def objKind (op : String) : ObjKind :=
  if op = "list-repos" then .base
  else if masterOps.contains op then .master
  else .copy

/-- Progress-bar gate of main.py line 125: `dtuf_progress == '1' or
(dtuf_progress != '0' and sys.stderr.isatty())`. -/
def progressEnabled (env : Env) (stderrAtty : Bool) : Bool :=
  env "DTUF_PROGRESS" == some "1"
    || (env "DTUF_PROGRESS" != some "0" && stderrAtty)

/-- Token assignment of main.py lines 194-196: `environ.get('DTUF_TOKEN')`,
assigned to `dtuf_obj.token` only when truthy (non-empty). -/
def tokenEvents (env : Env) : List Event :=
  match env "DTUF_TOKEN" with
  | some t => if t ≠ "" then [.setToken t] else []
  | none => []

/-- An operation that returns nothing: record the call; if the world says it
raises, abort with that exception, dropping the continuation. -/
def withCall (w : World) (c : Call) (rest : DoitRes) : DoitRes :=
  match w.excAt c with
  | some e => ⟨[.call c], some (.exc e)⟩
  | none => ⟨.call c :: rest.trace, rest.err⟩

/-- Normal completion with no further events. -/
def doneRes : DoitRes := ⟨[], none⟩

/-- An argparse `parser.error(msg)`: prints usage and raises SystemExit. -/
def parserErrorRes (msg : String) : DoitRes := ⟨[], some (.parser msg)⟩

/-- Prefix a result's trace with earlier events. -/
def prependEvents (es : List Event) (r : DoitRes) : DoitRes :=
  ⟨es ++ r.trace, r.err⟩

/-- Printing each string of a list on its own line. -/
def printAll (ss : List String) : List Event := ss.map .print

/-- A call followed by printing, as in `for name in obj.xxx(): print(name)`. -/
def callThenPrints (w : World) (c : Call) (prints : List Event) : DoitRes :=
  match w.excAt c with
  | some e => ⟨[.call c], some (.exc e)⟩
  | none => ⟨.call c :: prints, none⟩

/-- Lines 233-235: `for name in args.args: dtuf_master.del_target(name)`. -/
def delTargetLoop (w : World) : List String → DoitRes
  | [] => doneRes
  | n :: ns => withCall w (.delTarget n) (delTargetLoop w ns)

/-- Lines 272-276, inner loop: per `(it, dgst, size)` from `pull_target`,
optionally print `dgst + ' ' + str(size)` when `DTUF_BLOB_INFO == '1'`, then
write the blob to stdout through `_write_with_progress`. -/
def pullTargetBlobsEvents (env : Env) (prog : Bool) : List (String × Nat) → List Event
  | [] => []
  | (dgst, size) :: rest =>
    (if env "DTUF_BLOB_INFO" == some "1"
     then [Event.print (dgst ++ " " ++ toString size)] else [])
      ++ Event.writeBlob dgst prog :: pullTargetBlobsEvents env prog rest

/-- Lines 270-276: `for name in args.args:` with a `pull_target` call each. -/
def pullTargetLoop (w : World) (env : Env) (prog : Bool) : List String → DoitRes
  | [] => doneRes
  | n :: ns =>
    match w.excAt (.pullTarget n) with
    | some e => ⟨[.call (.pullTarget n)], some (.exc e)⟩
    | none =>
      let r := pullTargetLoop w env prog ns
      ⟨.call (.pullTarget n)
         :: (pullTargetBlobsEvents env prog (w.pullTargetBlobs n) ++ r.trace),
       r.err⟩

/-- Lines 278-281: `for name in args.args: for size in blob_sizes(name): print(size)`. -/
def blobSizesLoop (w : World) : List String → DoitRes
  | [] => doneRes
  | n :: ns =>
    match w.excAt (.blobSizes n) with
    | some e => ⟨[.call (.blobSizes n)], some (.exc e)⟩
    | none =>
      let r := blobSizesLoop w ns
      ⟨.call (.blobSizes n)
         :: ((w.copyBlobSizes n).map (fun s => Event.print (toString s)) ++ r.trace),
       r.err⟩

/-- Lines 254-255 / 297-298: `print(role + ': ' + expiry.isoformat())`. -/
def expirationEvents (es : List (String × Expiry)) : List Event :=
  es.map (fun p => Event.print (p.1 ++ ": " ++ p.2.isoformat))

/-- Lines 260-266: the root public key for `pull-metadata` — `None` with no
argument, the whole of stdin for `-`, else the named file's bytes decoded as
UTF-8. -/
def rootPubKeyArg (args : List String) (w : World) : Option String :=
  match args with
  | [] => none
  | f :: _ => if f = "-" then some w.stdin else some (w.fileContents f)

/-- The subcommands as a closed enumeration; `parse_args` restricts `args.op`
to the 17 strings of `choices` (lines 66-90), and the `elif` chain of `_doit`
compares `args.op` against them in turn. -/
inductive OpCode where
  | auth
  | createRootKey
  | createMetadataKeys
  | createMetadata
  | resetKeys
  | pushTarget
  | delTarget
  | pushMetadata
  | listMasterTargets
  | getMasterExpirations
  | pullMetadata
  | pullTarget
  | blobSizes
  | checkTarget
  | listCopyTargets
  | getCopyExpirations
  | listRepos
  | unknown
deriving DecidableEq

/-- Recode the subcommand string into the enumeration, following the string
comparisons of the `elif` chain (lines 186-302). -/
def opCode (op : String) : OpCode :=
  if op = "auth" then .auth
  else if op = "create-root-key" then .createRootKey
  else if op = "create-metadata-keys" then .createMetadataKeys
  else if op = "create-metadata" then .createMetadata
  else if op = "reset-keys" then .resetKeys
  else if op = "push-target" then .pushTarget
  else if op = "del-target" then .delTarget
  else if op = "push-metadata" then .pushMetadata
  else if op = "list-master-targets" then .listMasterTargets
  else if op = "get-master-expirations" then .getMasterExpirations
  else if op = "pull-metadata" then .pullMetadata
  else if op = "pull-target" then .pullTarget
  else if op = "blob-sizes" then .blobSizes
  else if op = "check-target" then .checkTarget
  else if op = "list-copy-targets" then .listCopyTargets
  else if op = "get-copy-expirations" then .getCopyExpirations
  else if op = "list-repos" then .listRepos
  else .unknown

/-- The `elif` chain of `_doit` after the token step (main.py lines 198-302);
the `auth` case never reaches here (it returns at line 192), and no other
subcommand exists after `parse_args`. -/
def dispatchOp (code : OpCode) (args : List String) (env : Env) (w : World)
    (prog : Bool) : DoitRes :=
  match code with
  | .createRootKey =>
    if args.length > 0 then parserErrorRes "too many arguments"
    else withCall w (.createRootKey (env "DTUF_ROOT_KEY_PASSWORD")) doneRes
  | .createMetadataKeys =>
    if args.length > 0 then parserErrorRes "too many arguments"
    else withCall w (.createMetadataKeys (env "DTUF_TARGETS_KEY_PASSWORD")
      (env "DTUF_SNAPSHOT_KEY_PASSWORD") (env "DTUF_TIMESTAMP_KEY_PASSWORD")) doneRes
  | .createMetadata =>
    if args.length > 0 then parserErrorRes "too many arguments"
    else withCall w (.createMetadata (env "DTUF_ROOT_KEY_PASSWORD")
      (env "DTUF_TARGETS_KEY_PASSWORD") (env "DTUF_SNAPSHOT_KEY_PASSWORD")
      (env "DTUF_TIMESTAMP_KEY_PASSWORD")) doneRes
  | .resetKeys =>
    if args.length > 0 then parserErrorRes "too many arguments"
    else withCall w (.resetKeys (env "DTUF_ROOT_KEY_PASSWORD")
      (env "DTUF_TARGETS_KEY_PASSWORD") (env "DTUF_SNAPSHOT_KEY_PASSWORD")
      (env "DTUF_TIMESTAMP_KEY_PASSWORD")) doneRes
  | .pushTarget =>
    if args.length < 2 then parserErrorRes "too few arguments"
    else match args with
      | [] => doneRes
      | t :: srcs => withCall w (.pushTarget t srcs prog) doneRes
  | .delTarget => delTargetLoop w args
  | .pushMetadata =>
    if args.length > 0 then parserErrorRes "too many arguments"
    else withCall w (.pushMetadata (env "DTUF_TARGETS_KEY_PASSWORD")
      (env "DTUF_SNAPSHOT_KEY_PASSWORD") (env "DTUF_TIMESTAMP_KEY_PASSWORD") prog) doneRes
  | .listMasterTargets =>
    if args.length > 0 then parserErrorRes "too many arguments"
    else callThenPrints w .masterListTargets (printAll w.masterTargets)
  | .getMasterExpirations =>
    if args.length > 0 then parserErrorRes "too many arguments"
    else callThenPrints w .masterGetExpirations (expirationEvents w.masterExpirations)
  | .pullMetadata =>
    if args.length > 1 then parserErrorRes "too many arguments"
    else callThenPrints w (.pullMetadata (rootPubKeyArg args w) prog)
      (printAll w.pullMetadataNames)
  | .pullTarget => pullTargetLoop w env prog args
  | .blobSizes => blobSizesLoop w args
  | .checkTarget =>
    if args.length < 2 then parserErrorRes "too few arguments"
    else match args with
      | [] => doneRes
      | t :: fs => withCall w (.checkTarget t fs) doneRes
  | .listCopyTargets =>
    if args.length > 0 then parserErrorRes "too many arguments"
    else callThenPrints w .copyListTargets (printAll w.copyTargets)
  | .getCopyExpirations =>
    if args.length > 0 then parserErrorRes "too many arguments"
    else callThenPrints w .copyGetExpirations (expirationEvents w.copyExpirations)
  | .listRepos => callThenPrints w .listRepos (printAll w.listReposNames)
  | .auth => doneRes
  | .unknown => doneRes

/-- The inner `_doit` of main.py lines 184-302: the `auth` branch returns
before the token step; every other subcommand first runs the token step and
then its `elif` branch.  The `auth` branch indexes `environ['DTUF_USERNAME']`
and `environ['DTUF_PASSWORD']` (KeyError if absent) and prints the token
exactly when it is truthy. -/
def _doit (a : Args) (env : Env) (w : World) : DoitRes :=
  let prog := progressEnabled env w.stderrAtty
  if a.op = "auth" then
    match env "DTUF_USERNAME", env "DTUF_PASSWORD" with
    | some u, some p =>
      callThenPrints w (.authenticate u p a.args)
        (if w.authToken ≠ "" then [.print w.authToken] else [])
    | _, _ => ⟨[], some (.exc (.other "KeyError"))⟩
  else
    prependEvents (tokenEvents env) (dispatchOp (opCode a.op) a.args env w prog)

/-- Value of `errno.EACCES` returned by `access_denied` (lines 92-96). -/
def EACCES : Int := 13

/-- How a `doit` run terminates: a return code, a SystemExit from
`parser.error`, or an exception propagated past lines 304-313. -/
inductive Outcome where
  | ret (code : Int)
  | parserExit (msg : String)
  | uncaught (e : Exc)
deriving DecidableEq

/-- Whether a mirror error is a `dxf.exceptions.DXFUnauthorizedError`
(the `isinstance` test of line 311). -/
def MirrorErr.isUnauthorized : MirrorErr → Bool
  | .unauthorized => true
  | .other _ => false

/-- The `try/except` of main.py lines 304-313: normal return gives 0;
`DXFUnauthorizedError` gives `access_denied()` = EACCES; a
`NoWorkingMirrorError` gives EACCES when any mirror error is a
`DXFUnauthorizedError` and is re-raised otherwise; `parser.error` (SystemExit)
and any other exception propagate. -/
def handleErr : Option Err → Outcome
  | none => .ret 0
  | some (.parser m) => .parserExit m
  | some (.exc .unauthorized) => .ret EACCES
  | some (.exc (.noWorkingMirror errs)) =>
    if errs.any MirrorErr.isUnauthorized then .ret EACCES
    else .uncaught (.noWorkingMirror errs)
  | some (.exc (.other s)) => .uncaught (.other s)

/-- The whole of `doit` after argument parsing and object construction: run
`_doit` and apply the exception handler, keeping the event trace. -/
def doit (a : Args) (env : Env) (w : World) : Outcome × List Event :=
  let r := _doit a env w
  (handleErr r.err, r.trace)

/-- Modelled from the spec: the consumer-side TrustVerifier (the metadata
verification engine behind `DTufCopy.pull_metadata`) is not among the
repository sources under src/, which hold only the CLI dispatcher; this is
the metadata-document shape of spec §3 as the verifier checks it — a version,
an expiration instant, and whether the document carries a threshold of valid
signatures from keys the trusted root authorizes. -/
structure MetaDoc where
  version : Nat
  expires : Nat
  sigOk : Bool
deriving DecidableEq

/-- Modelled from the spec: one fetch/verify step of §4.4 (steps 2-4) for a
role document — signature/threshold valid, expiration strictly in the future,
version at least the last-trusted version for that role (a strictly older
version is rejected as rollback), and, when the referencing parent role's
payload pins a version, equality with that pinned version. -/
def verifyDoc (now lastTrusted : Nat) (parentPin : Option Nat) (doc : MetaDoc) : Bool :=
  doc.sigOk && decide (now < doc.expires) && decide (lastTrusted ≤ doc.version) &&
    (match parentPin with
     | some v => doc.version == v
     | none => true)

/-- A tqdm progress bar as the handler at main.py lines 127-136 observes it:
the cumulated count `n` and the declared `total`. -/
structure Bar where
  n : Nat
  total : Nat
deriving DecidableEq

/-- State of the `progress` closure: the `bars` dict of open bars (a bar is
removed from the dict exactly when it is closed, lines 135-136), plus the log
of bars that have been closed, with their final counts. -/
structure ProgressState where
  bars : List (String × Bar)
  closedBars : List (String × Bar)
deriving DecidableEq

/-- Dict write `bars[dgst] = b`: replace an existing binding or append. -/
def setBar : List (String × Bar) → String → Bar → List (String × Bar)
  | [], d, b => [(d, b)]
  | (d', b') :: rest, d, b =>
    if d' = d then (d, b) :: rest else (d', b') :: setBar rest d b

/-- Dict delete `del bars[dgst]`. -/
def delBar : List (String × Bar) → String → List (String × Bar)
  | [], _ => []
  | (d', b') :: rest, d => if d' = d then rest else (d', b') :: delBar rest d

/-- The `progress` closure of main.py lines 127-136: create a bar with
`total=size` for an unseen digest; `update(len(chunk))` when the chunk is
non-empty; close and delete the bar once `n >= total`. -/
def progress (st : ProgressState) (dgst : String) (chunkLen : Nat) (size : Nat) :
    ProgressState :=
  let bars :=
    match List.lookup dgst st.bars with
    | some _ => st.bars
    | none => setBar st.bars dgst ⟨0, size⟩
  let b := (List.lookup dgst bars).getD ⟨0, size⟩
  let b := if chunkLen > 0 then ⟨b.n + chunkLen, b.total⟩ else b
  if b.total ≤ b.n then ⟨delBar bars dgst, (dgst, b) :: st.closedBars⟩
  else ⟨setBar bars dgst b, st.closedBars⟩

/-- Feed a sequence of `(digest, chunk length, declared size)` invocations to
the handler. -/
def runProgress (st : ProgressState) : List (String × Nat × Nat) → ProgressState
  | [] => st
  | (d, c, s) :: rest => runProgress (progress st d c s) rest

/-- The handler's initial state: an empty `bars` dict. -/
def emptyProgress : ProgressState := ⟨[], []⟩

/-- The progress argument an event carries, if any: `push_target` (line 231),
`push_metadata` (line 243) and `pull_metadata` (line 267) receive the
callback-or-None directly, and `_write_with_progress` (line 276) receives it
for each pulled blob. -/
def Event.progressFlag : Event → Option Bool
  | .call (.pushTarget _ _ p) => some p
  | .call (.pushMetadata _ _ _ p) => some p
  | .call (.pullMetadata _ p) => some p
  | .writeBlob _ p => some p
  | _ => none

/-- The read operations of the consumer-side `DTufCopy` object. -/
def Call.isCopyRead : Call → Bool
  | .pullMetadata _ _ => true
  | .pullTarget _ => true
  | .blobSizes _ => true
  | .checkTarget _ _ => true
  | .copyListTargets => true
  | .copyGetExpirations => true
  | _ => false

/-- The six subcommands dispatched to a `DTufCopy` object. -/
def consumerOps : List String :=
  ["pull-metadata", "pull-target", "blob-sizes", "check-target",
   "list-copy-targets", "get-copy-expirations"]

/-- A concrete world used to evaluate the dispatcher on sample runs: no call
raises, and the repository objects return small fixed values. -/
def wTest : World :=
  ⟨true, "stdin-key", fun f => "key-of-" ++ f, fun _ => none, "tok123",
   ["mt"], [("root", ⟨"2026-01-01T00:00:00"⟩)], ["new-target"],
   fun _ => [("sha256:aa", 3)], fun _ => [5], ["ct"],
   [("timestamp", ⟨"2027-01-01T00:00:00"⟩)], ["repo1"]⟩

/-- A world in which every repository call raises `DXFUnauthorizedError`. -/
def wUnauth : World :=
  ⟨true, "", fun _ => "", fun _ => some .unauthorized, "", [], [], [],
   fun _ => [], fun _ => [], [], [], []⟩

/-- A world in which every repository call raises a `NoWorkingMirrorError`
holding a `DXFUnauthorizedError` among its mirror errors. -/
def wMirrorUnauth : World :=
  ⟨true, "", fun _ => "", fun _ => some (.noWorkingMirror [.unauthorized]), "",
   [], [], [], fun _ => [], fun _ => [], [], [], []⟩

/-- A world in which every repository call raises a `NoWorkingMirrorError`
none of whose mirror errors is a `DXFUnauthorizedError`. -/
def wMirrorOther : World :=
  ⟨true, "", fun _ => "", fun _ => some (.noWorkingMirror [.other "timeout"]),
   "", [], [], [], fun _ => [], fun _ => [], [], [], []⟩

/-- A concrete environment enabling the progress bar and nothing else. -/
def envTest : Env := fun k => if k = "DTUF_PROGRESS" then some "1" else none

/-- A concrete environment with a token and credentials. -/
def envTok : Env := fun k =>
  if k = "DTUF_TOKEN" then some "tk"
  else if k = "DTUF_USERNAME" then some "u1"
  else if k = "DTUF_PASSWORD" then some "p1"
  else none

/-- The same environment as `envTok` with `DTUF_TOKEN` removed. -/
def envTok2 : Env := fun k =>
  if k = "DTUF_USERNAME" then some "u1"
  else if k = "DTUF_PASSWORD" then some "p1"
  else none

lemma withCall_done_trace (w : World) (c : Call) :
    (withCall w c doneRes).trace = [.call c] := by
  unfold withCall doneRes
  split <;> rfl

lemma withCall_err_of_none (w : World) (c : Call) (r : DoitRes) (h : w.excAt c = none) :
    withCall w c r = ⟨.call c :: r.trace, r.err⟩ := by
  unfold withCall
  rw [h]

lemma withCall_mem (w : World) (c : Call) (r : DoitRes) (e : Event)
    (he : e ∈ (withCall w c r).trace) : e = .call c ∨ e ∈ r.trace := by
  unfold withCall at he
  rcases h : w.excAt c with _ | ex <;> rw [h] at he <;> simp at he <;> tauto

lemma callThenPrints_mem (w : World) (c : Call) (prints : List Event) (e : Event)
    (he : e ∈ (callThenPrints w c prints).trace) : e = .call c ∨ e ∈ prints := by
  unfold callThenPrints at he
  rcases h : w.excAt c with _ | ex <;> rw [h] at he <;> simp at he <;> tauto

lemma callThenPrints_of_none (w : World) (c : Call) (prints : List Event)
    (h : w.excAt c = none) :
    callThenPrints w c prints = ⟨.call c :: prints, none⟩ := by
  unfold callThenPrints
  rw [h]

lemma tokenEvents_no_call (env : Env) (c : Call) : Event.call c ∉ tokenEvents env := by
  unfold tokenEvents
  rcases env "DTUF_TOKEN" with _ | t
  · simp
  · split <;> simp

lemma tokenEvents_flag (env : Env) (e : Event) (he : e ∈ tokenEvents env) :
    e.progressFlag = none := by
  unfold tokenEvents at he
  rcases h : env "DTUF_TOKEN" with _ | t <;> rw [h] at he
  · simp at he
  · simp at he
    obtain ⟨-, rfl⟩ := he
    rfl

lemma printAll_mem (ss : List String) (e : Event) (he : e ∈ printAll ss) :
    ∃ s, e = .print s := by
  unfold printAll at he
  simp at he
  tauto

lemma expirationEvents_mem (es : List (String × Expiry)) (e : Event)
    (he : e ∈ expirationEvents es) : ∃ s, e = .print s := by
  unfold expirationEvents at he
  simp at he
  tauto

lemma pullTargetBlobsEvents_mem (env : Env) (prog : Bool) (bs : List (String × Nat))
    (e : Event) (he : e ∈ pullTargetBlobsEvents env prog bs) :
    (∃ s, e = .print s) ∨ (∃ d, e = .writeBlob d prog) := by
  induction bs with
  | nil => simp [pullTargetBlobsEvents] at he
  | cons b rest ih =>
    rw [pullTargetBlobsEvents] at he
    rcases List.mem_append.mp he with h | h
    · split at h <;> simp at h
      exact .inl ⟨_, h⟩
    · rcases List.mem_cons.mp h with rfl | h
      · exact .inr ⟨_, rfl⟩
      · exact ih h

lemma delTargetLoop_mem (w : World) (ns : List String) (e : Event)
    (he : e ∈ (delTargetLoop w ns).trace) : ∃ n, e = .call (.delTarget n) := by
  induction ns with
  | nil => simp [delTargetLoop, doneRes] at he
  | cons n rest ih =>
    rw [delTargetLoop] at he
    unfold withCall at he
    rcases h : w.excAt (.delTarget n) with _ | ex <;> rw [h] at he <;> simp at he
    · rcases he with rfl | he
      · exact ⟨n, rfl⟩
      · exact ih he
    · exact ⟨n, he⟩

lemma pullTargetLoop_mem (w : World) (env : Env) (prog : Bool) (ns : List String)
    (e : Event) (he : e ∈ (pullTargetLoop w env prog ns).trace) :
    (∃ n, e = .call (.pullTarget n)) ∨ (∃ s, e = .print s) ∨
      (∃ d, e = .writeBlob d prog) := by
  induction ns with
  | nil => simp [pullTargetLoop, doneRes] at he
  | cons n rest ih =>
    rw [pullTargetLoop] at he
    rcases h : w.excAt (.pullTarget n) with _ | ex <;> rw [h] at he <;> simp at he
    · rcases he with rfl | he
      · exact .inl ⟨n, rfl⟩
      rcases he with h2 | h2
      · rcases pullTargetBlobsEvents_mem env prog _ e h2 with h3 | h3
        · exact .inr (.inl h3)
        · exact .inr (.inr h3)
      · exact ih h2
    · exact .inl ⟨n, he⟩

lemma blobSizesLoop_mem (w : World) (ns : List String) (e : Event)
    (he : e ∈ (blobSizesLoop w ns).trace) :
    (∃ n, e = .call (.blobSizes n)) ∨ (∃ s, e = .print s) := by
  induction ns with
  | nil => simp [blobSizesLoop, doneRes] at he
  | cons n rest ih =>
    rw [blobSizesLoop] at he
    rcases h : w.excAt (.blobSizes n) with _ | ex <;> rw [h] at he <;> simp at he
    · rcases he with rfl | he
      · exact .inl ⟨n, rfl⟩
      rcases he with ⟨s, _, rfl⟩ | h2
      · exact .inr ⟨_, rfl⟩
      · exact ih h2
    · exact .inl ⟨n, he⟩

set_option linter.unreachableTactic false in
set_option linter.unusedTactic false in
lemma dispatchOp_flags (code : OpCode) (args : List String) (env : Env) (w : World)
    (prog : Bool) :
    ∀ e ∈ (dispatchOp code args env w prog).trace, ∀ q, e.progressFlag = some q → q = prog := by
  intro e he q hq
  cases code <;> simp only [dispatchOp] at he <;>
  first
  | (simp [doneRes] at he
     done)
  | (rcases delTargetLoop_mem _ _ _ he with ⟨n, rfl⟩
     simp [Event.progressFlag] at hq
     done)
  | (rcases blobSizesLoop_mem _ _ _ he with ⟨n, rfl⟩ | ⟨s, rfl⟩ <;>
       simp [Event.progressFlag] at hq
     done)
  | (rcases pullTargetLoop_mem _ _ _ _ _ he with ⟨n, rfl⟩ | ⟨s, rfl⟩ | ⟨dg, rfl⟩ <;>
       simp [Event.progressFlag] at hq <;>
       all_goals (first | exact hq | exact hq.symm)
     done)
  | (rcases callThenPrints_mem _ _ _ _ he with rfl | hp
     · simp [Event.progressFlag] at hq
       all_goals (first | exact hq | exact hq.symm)
     · first
       | (rcases printAll_mem _ _ hp with ⟨s, rfl⟩
          simp [Event.progressFlag] at hq
          done)
       | (rcases expirationEvents_mem _ _ hp with ⟨s, rfl⟩
          simp [Event.progressFlag] at hq
          done))
  | (split_ifs at he with hl
     · simp [parserErrorRes] at he
     · first
       | (rcases withCall_mem _ _ _ _ he with rfl | h2
          · simp [Event.progressFlag] at hq
            all_goals (first | exact hq | exact hq.symm)
          · simp [doneRes] at h2
            done)
       | (rcases callThenPrints_mem _ _ _ _ he with rfl | hp
          · simp [Event.progressFlag] at hq
            all_goals (first | exact hq | exact hq.symm)
          · first
            | (rcases printAll_mem _ _ hp with ⟨s, rfl⟩
               simp [Event.progressFlag] at hq
               done)
            | (rcases expirationEvents_mem _ _ hp with ⟨s, rfl⟩
               simp [Event.progressFlag] at hq
               done))
       | (rcases args with _ | ⟨t, rest⟩
          · exact absurd (by simp) hl
          · rcases withCall_mem _ _ _ _ he with rfl | h2
            · simp [Event.progressFlag] at hq
              all_goals (first | exact hq | exact hq.symm)
            · simp [doneRes] at h2
              done))

lemma progress_open (d : String) (s n : Nat) (cl : List (String × Bar)) (c : Nat)
    (hc : 0 < c) (hlt : n + c < s) :
    progress ⟨[(d, ⟨n, s⟩)], cl⟩ d c s = ⟨[(d, ⟨n + c, s⟩)], cl⟩ := by
  simp [progress, List.lookup, setBar, hc, Nat.not_le.mpr hlt]

lemma progress_close (d : String) (s n : Nat) (cl : List (String × Bar)) (c : Nat)
    (hc : 0 < c) (hge : s ≤ n + c) :
    progress ⟨[(d, ⟨n, s⟩)], cl⟩ d c s = ⟨[], (d, ⟨n + c, s⟩) :: cl⟩ := by
  simp [progress, List.lookup, delBar, hc, hge]

lemma progress_first (d : String) (s : Nat) (cl : List (String × Bar)) (c : Nat)
    (hlt : c < s) (hc : 0 < c) :
    progress ⟨[], cl⟩ d c s = ⟨[(d, ⟨c, s⟩)], cl⟩ := by
  simp [progress, List.lookup, setBar, hc, Nat.not_le.mpr hlt]

lemma progress_first_close (d : String) (s : Nat) (cl : List (String × Bar)) (c : Nat)
    (hge : s ≤ c) (hc : 0 < c) :
    progress ⟨[], cl⟩ d c s = ⟨[], (d, ⟨c, s⟩) :: cl⟩ := by
  simp [progress, List.lookup, setBar, delBar, hc, hge]

lemma progress_empty_reopen (d : String) (s : Nat) (cl : List (String × Bar))
    (hs : 0 < s) :
    progress ⟨[], cl⟩ d 0 s = ⟨[(d, ⟨0, s⟩)], cl⟩ := by
  simp [progress, List.lookup, setBar, Nat.not_le.mpr hs]

lemma chunkRun (d : String) (s : Nat) :
    ∀ (chunks : List Nat) (n : Nat) (cl : List (String × Bar)), chunks ≠ [] →
      (∀ c ∈ chunks, 0 < c) → n + chunks.sum = s →
      runProgress ⟨[(d, ⟨n, s⟩)], cl⟩ (chunks.map fun c => (d, c, s)) =
        ⟨[], (d, ⟨s, s⟩) :: cl⟩
  | [], _, _, hne, _, _ => absurd rfl hne
  | [c], n, cl, _, hpos, hsum => by
    have hc : 0 < c := hpos c (by simp)
    simp at hsum
    have hs : s ≤ n + c := by omega
    simp [runProgress, progress_close d s n cl c hc hs]
    omega
  | c :: c' :: cs, n, cl, _, hpos, hsum => by
    have hc : 0 < c := hpos c (by simp)
    have hc' : 0 < c' := hpos c' (by simp)
    simp at hsum
    have hlt : n + c < s := by omega
    rw [List.map_cons, runProgress, progress_open d s n cl c hc hlt]
    exact chunkRun d s (c' :: cs) (n + c) cl (by simp)
      (fun x hx => hpos x (by simp at hx ⊢; tauto)) (by simp; omega)

lemma chunkRunEmpty (d : String) (s : Nat) (chunks : List Nat)
    (hne : chunks ≠ []) (hpos : ∀ c ∈ chunks, 0 < c) (hsum : chunks.sum = s) :
    runProgress emptyProgress (chunks.map fun c => (d, c, s)) =
      ⟨[], [(d, ⟨s, s⟩)]⟩ := by
  match chunks, hne with
  | c :: cs, _ =>
    have hc : 0 < c := hpos c (by simp)
    simp at hsum
    match cs with
    | [] =>
      simp at hsum
      rw [List.map_cons, List.map_nil, runProgress, emptyProgress,
        progress_first_close d s [] c (by omega) hc, runProgress]
      simp
      omega
    | c' :: cs' =>
      have hc' : 0 < c' := hpos c' (by simp)
      have hlt : c < s := by simp at hsum; omega
      rw [List.map_cons, runProgress, emptyProgress, progress_first d s [] c hlt hc]
      exact chunkRun d s (c' :: cs') c [] (by simp)
        (fun x hx => hpos x (by simp at hx ⊢; tauto)) (by simp at hsum ⊢; omega)

lemma progressEnabled_iff (env : Env) (t : Bool) :
    progressEnabled env t = true ↔
      (env "DTUF_PROGRESS" = some "1" ∨
        (env "DTUF_PROGRESS" ≠ some "0" ∧ t = true)) := by
  unfold progressEnabled
  rcases env "DTUF_PROGRESS" with _ | s <;> cases t <;>
    simp [beq_iff_eq, bne_iff_ne]

lemma _doit_not_auth (a : Args) (env : Env) (w : World) (h : a.op ≠ "auth") :
    _doit a env w = prependEvents (tokenEvents env)
      (dispatchOp (opCode a.op) a.args env w (progressEnabled env w.stderrAtty)) := by
  unfold _doit
  rw [if_neg h]

lemma doit_fst (a : Args) (env : Env) (w : World) :
    (doit a env w).1 = handleErr (_doit a env w).err := rfl

lemma doit_split (a : Args) (env : Env) (w : World) (h : a.op ≠ "auth") :
    doit a env w =
      (handleErr (dispatchOp (opCode a.op) a.args env w
        (progressEnabled env w.stderrAtty)).err,
       tokenEvents env ++ (dispatchOp (opCode a.op) a.args env w
        (progressEnabled env w.stderrAtty)).trace) := by
  unfold doit
  rw [_doit_not_auth a env w h]
  rfl

lemma tokenEvents_some (env : Env) (t : String) (ht : env "DTUF_TOKEN" = some t)
    (htne : t ≠ "") : tokenEvents env = [.setToken t] := by
  unfold tokenEvents
  rw [ht]
  simp [htne]

/-- C1: for every role, a verification step whose last-trusted version is V
rejects any fetched document with version < V (rollback), and rejects a
fetched document with version > V whenever the referencing parent role's
payload pins a version different from that new version. -/
theorem C1_version_monotonicity (now lastTrusted : Nat) (parentPin : Option Nat)
    (doc : MetaDoc) :
    (doc.version < lastTrusted → verifyDoc now lastTrusted parentPin doc = false) ∧
    (lastTrusted < doc.version → ∀ p, parentPin = some p → p ≠ doc.version →
      verifyDoc now lastTrusted parentPin doc = false) := by
  constructor
  · intro h
    simp [verifyDoc, Nat.not_le.mpr h]
  · intro _ p hp hne
    subst hp
    simp [verifyDoc, beq_iff_eq]
    intro _ _ _
    omega

/-- C1 witness: a document of version 2 is rejected when version 5 is already
trusted, and a document of version 9 is rejected when the parent pins
version 7. -/
theorem C1_version_monotonicity_witness :
    verifyDoc 3 5 (some 7) ⟨2, 10, true⟩ = false ∧
    verifyDoc 3 5 (some 7) ⟨9, 10, true⟩ = false :=
  ⟨(C1_version_monotonicity 3 5 (some 7) ⟨2, 10, true⟩).1 (by decide),
   (C1_version_monotonicity 3 5 (some 7) ⟨9, 10, true⟩).2 (by decide) 7 rfl
     (by decide)⟩

/-- C2: every subcommand in {pull-metadata, pull-target, blob-sizes,
check-target, list-copy-targets, get-copy-expirations} constructs a DTufCopy
object, and every repository-object method call the run performs is one of the
six read operations; no push, delete, metadata-push or key-lifecycle call ever
occurs. -/
theorem C2_consumer_read_only (a : Args) (env : Env) (w : World)
    (h : a.op ∈ consumerOps) :
    objKind a.op = .copy ∧
    ∀ c : Call, Event.call c ∈ (doit a env w).2 → c.isCopyRead = true := by
  obtain ⟨op, repo, args⟩ := a
  simp [consumerOps] at h
  have step : ∀ code : OpCode, ∀ prog : Bool,
      (∀ c : Call, Event.call c ∈ (dispatchOp code args env w prog).trace →
        c.isCopyRead = true) →
      ∀ c : Call, Event.call c ∈ tokenEvents env ++
        (dispatchOp code args env w prog).trace → c.isCopyRead = true := by
    intro code prog hd c hc
    rcases List.mem_append.mp hc with h1 | h1
    · exact absurd h1 (tokenEvents_no_call env c)
    · exact hd c h1
  rcases h with rfl | rfl | rfl | rfl | rfl | rfl
  · refine ⟨(by decide : objKind "pull-metadata" = ObjKind.copy),
      step OpCode.pullMetadata (progressEnabled env w.stderrAtty) ?_⟩
    intro c hc
    simp only [dispatchOp] at hc
    split_ifs at hc with hl
    · simp [parserErrorRes] at hc
    · rcases callThenPrints_mem _ _ _ _ hc with heq | hp
      · obtain rfl : c = .pullMetadata (rootPubKeyArg args w)
          (progressEnabled env w.stderrAtty) := by
          injection heq
        rfl
      · rcases printAll_mem _ _ hp with ⟨s, hs⟩
        cases hs
  · refine ⟨(by decide : objKind "pull-target" = ObjKind.copy),
      step OpCode.pullTarget (progressEnabled env w.stderrAtty) ?_⟩
    intro c hc
    rcases pullTargetLoop_mem _ _ _ _ _ hc with ⟨n, hn⟩ | ⟨s, hs⟩ | ⟨d, hd⟩
    · obtain rfl : c = .pullTarget n := by injection hn
      rfl
    · cases hs
    · cases hd
  · refine ⟨(by decide : objKind "blob-sizes" = ObjKind.copy),
      step OpCode.blobSizes (progressEnabled env w.stderrAtty) ?_⟩
    intro c hc
    rcases blobSizesLoop_mem _ _ _ hc with ⟨n, hn⟩ | ⟨s, hs⟩
    · obtain rfl : c = .blobSizes n := by injection hn
      rfl
    · cases hs
  · refine ⟨(by decide : objKind "check-target" = ObjKind.copy),
      step OpCode.checkTarget (progressEnabled env w.stderrAtty) ?_⟩
    intro c hc
    simp only [dispatchOp] at hc
    split_ifs at hc with hl
    · simp [parserErrorRes] at hc
    · rcases args with _ | ⟨t, rest⟩
      · exact absurd (by simp) hl
      · rcases withCall_mem _ _ _ _ hc with heq | h2
        · obtain rfl : c = .checkTarget t rest := by injection heq
          rfl
        · simp [doneRes] at h2
  · refine ⟨(by decide : objKind "list-copy-targets" = ObjKind.copy),
      step OpCode.listCopyTargets (progressEnabled env w.stderrAtty) ?_⟩
    intro c hc
    simp only [dispatchOp] at hc
    split_ifs at hc with hl
    · simp [parserErrorRes] at hc
    · rcases callThenPrints_mem _ _ _ _ hc with heq | hp
      · obtain rfl : c = .copyListTargets := by injection heq
        rfl
      · rcases printAll_mem _ _ hp with ⟨s, hs⟩
        cases hs
  · refine ⟨(by decide : objKind "get-copy-expirations" = ObjKind.copy),
      step OpCode.getCopyExpirations (progressEnabled env w.stderrAtty) ?_⟩
    intro c hc
    simp only [dispatchOp] at hc
    split_ifs at hc with hl
    · simp [parserErrorRes] at hc
    · rcases callThenPrints_mem _ _ _ _ hc with heq | hp
      · obtain rfl : c = .copyGetExpirations := by injection heq
        rfl
      · rcases expirationEvents_mem _ _ hp with ⟨s, hs⟩
        cases hs

/-- C2 witness: a concrete blob-sizes run is routed to a DTufCopy object and
performs only copy-read calls. -/
theorem C2_consumer_read_only_witness :
    objKind (Args.mk "blob-sizes" "r" ["t"]).op = .copy ∧
    ∀ c : Call, Event.call c ∈ (doit ⟨"blob-sizes", "r", ["t"]⟩ envTest wTest).2 →
      c.isCopyRead = true :=
  C2_consumer_read_only ⟨"blob-sizes", "r", ["t"]⟩ envTest wTest (by decide)

/-- C3: a run that completes returns 0; a `DXFUnauthorizedError` yields
`errno.EACCES`; a `NoWorkingMirrorError` yields EACCES when one of its mirror
errors is a `DXFUnauthorizedError` and is re-raised to the caller when none
is. -/
theorem C3_error_mapping (a : Args) (env : Env) (w : World)
    (errs : List MirrorErr) :
    ((_doit a env w).err = none → (doit a env w).1 = .ret 0) ∧
    ((_doit a env w).err = some (.exc .unauthorized) →
      (doit a env w).1 = .ret EACCES) ∧
    ((_doit a env w).err = some (.exc (.noWorkingMirror errs)) →
      (((∃ m ∈ errs, m = .unauthorized) → (doit a env w).1 = .ret EACCES) ∧
       ((∀ m ∈ errs, m ≠ .unauthorized) →
         (doit a env w).1 = .uncaught (.noWorkingMirror errs)))) := by
  refine ⟨fun h => ?_, fun h => ?_, fun h => ⟨fun hex => ?_, fun hall => ?_⟩⟩ <;>
    rw [doit_fst, h]
  · rfl
  · rfl
  · obtain ⟨m, hm, rfl⟩ := hex
    have hany : errs.any MirrorErr.isUnauthorized = true :=
      List.any_eq_true.mpr ⟨.unauthorized, hm, rfl⟩
    simp [handleErr, hany]
  · have hany : errs.any MirrorErr.isUnauthorized = false := by
      rw [List.any_eq_false]
      intro m hm
      cases m with
      | unauthorized => exact absurd rfl (hall _ hm)
      | other s => simp [MirrorErr.isUnauthorized]
    simp [handleErr, hany]

/-- C3 witness: a clean del-target run returns 0; with each call raising
`DXFUnauthorizedError` it returns EACCES; a mirror bundle containing an
unauthorized error returns EACCES; a mirror bundle without one is re-raised. -/
theorem C3_error_mapping_witness :
    (doit ⟨"del-target", "r", []⟩ envTest wTest).1 = .ret 0 ∧
    (doit ⟨"del-target", "r", ["t"]⟩ envTest wUnauth).1 = .ret EACCES ∧
    (doit ⟨"del-target", "r", ["t"]⟩ envTest wMirrorUnauth).1 = .ret EACCES ∧
    (doit ⟨"del-target", "r", ["t"]⟩ envTest wMirrorOther).1 =
      .uncaught (.noWorkingMirror [.other "timeout"]) :=
  ⟨(C3_error_mapping ⟨"del-target", "r", []⟩ envTest wTest []).1 rfl,
   (C3_error_mapping ⟨"del-target", "r", ["t"]⟩ envTest wUnauth []).2.1 rfl,
   ((C3_error_mapping ⟨"del-target", "r", ["t"]⟩ envTest wMirrorUnauth
      [.unauthorized]).2.2 rfl).1 ⟨.unauthorized, by decide, rfl⟩,
   ((C3_error_mapping ⟨"del-target", "r", ["t"]⟩ envTest wMirrorOther
      [.other "timeout"]).2.2 rfl).2 (by decide)⟩

/-- C4 counterexample: for digest "d" with declared size 1, after one
non-empty chunk of length 1 (summing to the total) followed by one final
empty completion chunk, the `bars` dict still holds an open bar for "d"
(with count 0), so the claimed cleanup does not hold. -/
theorem C4_progress_cleanup_counterexample :
    List.lookup "d" (runProgress emptyProgress [("d", 1, 1), ("d", 0, 1)]).bars =
      some ⟨0, 1⟩ := by decide

/-- C4 amended: when the non-empty chunks for a digest sum to its declared
size s > 0, the handler closes and removes that digest's bar already at the
last non-empty chunk; the final empty completion chunk then re-creates a
fresh open bar for the digest (count 0), which stays in `bars`. -/
theorem C4_progress_cleanup_amended (d : String) (s : Nat) (chunks : List Nat)
    (hs : 0 < s) (hne : chunks ≠ []) (hpos : ∀ c ∈ chunks, 0 < c)
    (hsum : chunks.sum = s) :
    List.lookup d (runProgress emptyProgress
      (chunks.map fun c => (d, c, s))).bars = none ∧
    (d, (⟨s, s⟩ : Bar)) ∈ (runProgress emptyProgress
      (chunks.map fun c => (d, c, s))).closedBars ∧
    List.lookup d (progress (runProgress emptyProgress
      (chunks.map fun c => (d, c, s))) d 0 s).bars = some ⟨0, s⟩ := by
  rw [chunkRunEmpty d s chunks hne hpos hsum]
  refine ⟨by simp [List.lookup], by simp, ?_⟩
  rw [progress_empty_reopen d s _ hs]
  simp [List.lookup]

/-- C4 witness: with two chunks of length 1 for a digest of size 2, the bar is
closed and removed after the chunks, and the trailing empty chunk re-creates
an open bar. -/
theorem C4_progress_cleanup_witness :
    List.lookup "d" (runProgress emptyProgress
      ([1, 1].map fun c => ("d", c, 2))).bars = none ∧
    ("d", (⟨2, 2⟩ : Bar)) ∈ (runProgress emptyProgress
      ([1, 1].map fun c => ("d", c, 2))).closedBars ∧
    List.lookup "d" (progress (runProgress emptyProgress
      ([1, 1].map fun c => ("d", c, 2))) "d" 0 2).bars = some ⟨0, 2⟩ :=
  C4_progress_cleanup_amended "d" 2 [1, 1] (by decide) (by decide) (by decide)
    (by decide)

/-- C5: pull-metadata passes root public key None with no argument, the whole
of stdin for the single argument `-`, and the named file's UTF-8 contents for
any other single argument, then prints each returned target name on its own
line; with two or more arguments the run aborts with a parser error and
`pull_metadata` is never called. -/
theorem C5_pull_metadata_args (repo : String) (args : List String) (env : Env)
    (w : World) :
    (args = [] →
      w.excAt (.pullMetadata none (progressEnabled env w.stderrAtty)) = none →
      doit ⟨"pull-metadata", repo, args⟩ env w =
        (.ret 0, tokenEvents env ++
          .call (.pullMetadata none (progressEnabled env w.stderrAtty)) ::
            printAll w.pullMetadataNames)) ∧
    (args = ["-"] →
      w.excAt (.pullMetadata (some w.stdin)
        (progressEnabled env w.stderrAtty)) = none →
      doit ⟨"pull-metadata", repo, args⟩ env w =
        (.ret 0, tokenEvents env ++
          .call (.pullMetadata (some w.stdin)
            (progressEnabled env w.stderrAtty)) :: printAll w.pullMetadataNames)) ∧
    (∀ f, args = [f] → f ≠ "-" →
      w.excAt (.pullMetadata (some (w.fileContents f))
        (progressEnabled env w.stderrAtty)) = none →
      doit ⟨"pull-metadata", repo, args⟩ env w =
        (.ret 0, tokenEvents env ++
          .call (.pullMetadata (some (w.fileContents f))
            (progressEnabled env w.stderrAtty)) :: printAll w.pullMetadataNames)) ∧
    (2 ≤ args.length →
      doit ⟨"pull-metadata", repo, args⟩ env w =
        (.parserExit "too many arguments", tokenEvents env) ∧
      ∀ rk p, Event.call (.pullMetadata rk p) ∉
        (doit ⟨"pull-metadata", repo, args⟩ env w).2) := by
  refine ⟨?_, ?_, ?_, ?_⟩
  · rintro rfl hexc
    rw [show doit ⟨"pull-metadata", repo, []⟩ env w =
      (handleErr (callThenPrints w
        (.pullMetadata none (progressEnabled env w.stderrAtty))
        (printAll w.pullMetadataNames)).err,
       tokenEvents env ++ (callThenPrints w
        (.pullMetadata none (progressEnabled env w.stderrAtty))
        (printAll w.pullMetadataNames)).trace) from rfl,
      callThenPrints_of_none _ _ _ hexc]
    rfl
  · rintro rfl hexc
    rw [show doit ⟨"pull-metadata", repo, ["-"]⟩ env w =
      (handleErr (callThenPrints w
        (.pullMetadata (some w.stdin) (progressEnabled env w.stderrAtty))
        (printAll w.pullMetadataNames)).err,
       tokenEvents env ++ (callThenPrints w
        (.pullMetadata (some w.stdin) (progressEnabled env w.stderrAtty))
        (printAll w.pullMetadataNames)).trace) from rfl,
      callThenPrints_of_none _ _ _ hexc]
    rfl
  · rintro f rfl hf hexc
    have hroot : rootPubKeyArg [f] w = some (w.fileContents f) := by
      unfold rootPubKeyArg
      simp [hf]
    rw [show doit ⟨"pull-metadata", repo, [f]⟩ env w =
      (handleErr (callThenPrints w
        (.pullMetadata (rootPubKeyArg [f] w) (progressEnabled env w.stderrAtty))
        (printAll w.pullMetadataNames)).err,
       tokenEvents env ++ (callThenPrints w
        (.pullMetadata (rootPubKeyArg [f] w) (progressEnabled env w.stderrAtty))
        (printAll w.pullMetadataNames)).trace) from rfl,
      hroot, callThenPrints_of_none _ _ _ hexc]
    rfl
  · intro hlen
    have h2 : args.length > 1 := hlen
    constructor
    · rw [doit_split _ _ _ (by decide : ("pull-metadata" : String) ≠ "auth")]
      rw [show opCode "pull-metadata" = OpCode.pullMetadata from rfl]
      simp only [dispatchOp]
      rw [if_pos h2]
      simp [parserErrorRes, handleErr]
    · intro rk p hc
      rw [doit_split _ _ _ (by decide : ("pull-metadata" : String) ≠ "auth")] at hc
      rw [show opCode "pull-metadata" = OpCode.pullMetadata from rfl] at hc
      simp only [dispatchOp] at hc
      rw [if_pos h2] at hc
      simp only [parserErrorRes] at hc
      rw [List.append_nil] at hc
      exact absurd hc (tokenEvents_no_call env _)

/-- C5 witness: the four argument shapes evaluated on a concrete run. -/
theorem C5_pull_metadata_args_witness :
    (doit ⟨"pull-metadata", "r", []⟩ envTest wTest =
      (.ret 0, tokenEvents envTest ++
        .call (.pullMetadata none (progressEnabled envTest wTest.stderrAtty)) ::
          printAll wTest.pullMetadataNames)) ∧
    (doit ⟨"pull-metadata", "r", ["-"]⟩ envTest wTest =
      (.ret 0, tokenEvents envTest ++
        .call (.pullMetadata (some wTest.stdin)
          (progressEnabled envTest wTest.stderrAtty)) ::
          printAll wTest.pullMetadataNames)) ∧
    (doit ⟨"pull-metadata", "r", ["keyfile"]⟩ envTest wTest =
      (.ret 0, tokenEvents envTest ++
        .call (.pullMetadata (some (wTest.fileContents "keyfile"))
          (progressEnabled envTest wTest.stderrAtty)) ::
          printAll wTest.pullMetadataNames)) ∧
    (doit ⟨"pull-metadata", "r", ["a", "b"]⟩ envTest wTest =
      (.parserExit "too many arguments", tokenEvents envTest) ∧
     ∀ rk p, Event.call (.pullMetadata rk p) ∉
       (doit ⟨"pull-metadata", "r", ["a", "b"]⟩ envTest wTest).2) :=
  ⟨(C5_pull_metadata_args "r" [] envTest wTest).1 rfl rfl,
   (C5_pull_metadata_args "r" ["-"] envTest wTest).2.1 rfl rfl,
   (C5_pull_metadata_args "r" ["keyfile"] envTest wTest).2.2.1 "keyfile" rfl
     (by decide) rfl,
   (C5_pull_metadata_args "r" ["a", "b"] envTest wTest).2.2.2 (by decide)⟩

/-- C6: push-target with fewer than two positional arguments aborts with a
parser error and `push_target` is never called; with a name and at least one
source it calls `push_target` once with the name, all remaining arguments as
sources, and the progress callback. -/
theorem C6_push_target_args (repo : String) (args : List String) (env : Env)
    (w : World) :
    (args.length < 2 →
      doit ⟨"push-target", repo, args⟩ env w =
        (.parserExit "too few arguments", tokenEvents env) ∧
      ∀ t srcs p, Event.call (.pushTarget t srcs p) ∉
        (doit ⟨"push-target", repo, args⟩ env w).2) ∧
    (∀ t s srcs, args = t :: s :: srcs →
      w.excAt (.pushTarget t (s :: srcs)
        (progressEnabled env w.stderrAtty)) = none →
      doit ⟨"push-target", repo, args⟩ env w =
        (.ret 0, tokenEvents env ++
          [.call (.pushTarget t (s :: srcs)
            (progressEnabled env w.stderrAtty))])) := by
  constructor
  · intro hlen
    constructor
    · rw [doit_split _ _ _ (by decide : ("push-target" : String) ≠ "auth")]
      rw [show opCode "push-target" = OpCode.pushTarget from rfl]
      simp only [dispatchOp]
      rw [if_pos hlen]
      simp [parserErrorRes, handleErr]
    · intro t srcs p hc
      rw [doit_split _ _ _ (by decide : ("push-target" : String) ≠ "auth")] at hc
      rw [show opCode "push-target" = OpCode.pushTarget from rfl] at hc
      simp only [dispatchOp] at hc
      rw [if_pos hlen] at hc
      simp only [parserErrorRes] at hc
      rw [List.append_nil] at hc
      exact absurd hc (tokenEvents_no_call env _)
  · rintro t s srcs rfl hexc
    rw [show doit ⟨"push-target", repo, t :: s :: srcs⟩ env w =
      (handleErr (withCall w
        (.pushTarget t (s :: srcs) (progressEnabled env w.stderrAtty))
        doneRes).err,
       tokenEvents env ++ (withCall w
        (.pushTarget t (s :: srcs) (progressEnabled env w.stderrAtty))
        doneRes).trace) from rfl,
      withCall_err_of_none _ _ _ hexc]
    rfl

/-- C6 witness: one argument gives a parser error and no push; two arguments
give exactly one `push_target` call with name, sources and progress. -/
theorem C6_push_target_args_witness :
    (doit ⟨"push-target", "r", ["only"]⟩ envTest wTest =
      (.parserExit "too few arguments", tokenEvents envTest) ∧
     ∀ t srcs p, Event.call (.pushTarget t srcs p) ∉
       (doit ⟨"push-target", "r", ["only"]⟩ envTest wTest).2) ∧
    (doit ⟨"push-target", "r", ["t", "f1"]⟩ envTest wTest =
      (.ret 0, tokenEvents envTest ++
        [.call (.pushTarget "t" ["f1"]
          (progressEnabled envTest wTest.stderrAtty))])) :=
  ⟨(C6_push_target_args "r" ["only"] envTest wTest).1 (by decide),
   (C6_push_target_args "r" ["t", "f1"] envTest wTest).2 "t" "f1" [] rfl rfl⟩

/-- C7: get-master-expirations and get-copy-expirations with no extra argument
print one line per entry of the object's `get_expirations()` mapping in the
form `role ++ ": " ++ expiry.isoformat()`; any extra argument aborts with a
parser error before `get_expirations` is called. -/
theorem C7_expirations_output (repo : String) (args : List String) (env : Env)
    (w : World) :
    (args = [] → w.excAt .masterGetExpirations = none →
      doit ⟨"get-master-expirations", repo, args⟩ env w =
        (.ret 0, tokenEvents env ++ .call .masterGetExpirations ::
          w.masterExpirations.map
            (fun pr => Event.print (pr.1 ++ ": " ++ pr.2.isoformat)))) ∧
    (args ≠ [] →
      doit ⟨"get-master-expirations", repo, args⟩ env w =
        (.parserExit "too many arguments", tokenEvents env) ∧
      Event.call .masterGetExpirations ∉
        (doit ⟨"get-master-expirations", repo, args⟩ env w).2) ∧
    (args = [] → w.excAt .copyGetExpirations = none →
      doit ⟨"get-copy-expirations", repo, args⟩ env w =
        (.ret 0, tokenEvents env ++ .call .copyGetExpirations ::
          w.copyExpirations.map
            (fun pr => Event.print (pr.1 ++ ": " ++ pr.2.isoformat)))) ∧
    (args ≠ [] →
      doit ⟨"get-copy-expirations", repo, args⟩ env w =
        (.parserExit "too many arguments", tokenEvents env) ∧
      Event.call .copyGetExpirations ∉
        (doit ⟨"get-copy-expirations", repo, args⟩ env w).2) := by
  refine ⟨?_, ?_, ?_, ?_⟩
  · rintro rfl hexc
    rw [show doit ⟨"get-master-expirations", repo, []⟩ env w =
      (handleErr (callThenPrints w .masterGetExpirations
        (expirationEvents w.masterExpirations)).err,
       tokenEvents env ++ (callThenPrints w .masterGetExpirations
        (expirationEvents w.masterExpirations)).trace) from rfl,
      callThenPrints_of_none _ _ _ hexc]
    rfl
  · intro hne
    have hl : args.length > 0 := List.length_pos.mpr hne
    constructor
    · rw [doit_split _ _ _
        (by decide : ("get-master-expirations" : String) ≠ "auth")]
      rw [show opCode "get-master-expirations" = OpCode.getMasterExpirations
        from rfl]
      simp only [dispatchOp]
      rw [if_pos hl]
      simp [parserErrorRes, handleErr]
    · intro hc
      rw [doit_split _ _ _
        (by decide : ("get-master-expirations" : String) ≠ "auth")] at hc
      rw [show opCode "get-master-expirations" = OpCode.getMasterExpirations
        from rfl] at hc
      simp only [dispatchOp] at hc
      rw [if_pos hl] at hc
      simp only [parserErrorRes] at hc
      rw [List.append_nil] at hc
      exact absurd hc (tokenEvents_no_call env _)
  · rintro rfl hexc
    rw [show doit ⟨"get-copy-expirations", repo, []⟩ env w =
      (handleErr (callThenPrints w .copyGetExpirations
        (expirationEvents w.copyExpirations)).err,
       tokenEvents env ++ (callThenPrints w .copyGetExpirations
        (expirationEvents w.copyExpirations)).trace) from rfl,
      callThenPrints_of_none _ _ _ hexc]
    rfl
  · intro hne
    have hl : args.length > 0 := List.length_pos.mpr hne
    constructor
    · rw [doit_split _ _ _
        (by decide : ("get-copy-expirations" : String) ≠ "auth")]
      rw [show opCode "get-copy-expirations" = OpCode.getCopyExpirations
        from rfl]
      simp only [dispatchOp]
      rw [if_pos hl]
      simp [parserErrorRes, handleErr]
    · intro hc
      rw [doit_split _ _ _
        (by decide : ("get-copy-expirations" : String) ≠ "auth")] at hc
      rw [show opCode "get-copy-expirations" = OpCode.getCopyExpirations
        from rfl] at hc
      simp only [dispatchOp] at hc
      rw [if_pos hl] at hc
      simp only [parserErrorRes] at hc
      rw [List.append_nil] at hc
      exact absurd hc (tokenEvents_no_call env _)

/-- C7 witness: the four shapes evaluated on a concrete run. -/
theorem C7_expirations_output_witness :
    (doit ⟨"get-master-expirations", "r", []⟩ envTest wTest =
      (.ret 0, tokenEvents envTest ++ .call .masterGetExpirations ::
        wTest.masterExpirations.map
          (fun pr => Event.print (pr.1 ++ ": " ++ pr.2.isoformat)))) ∧
    (doit ⟨"get-master-expirations", "r", ["x"]⟩ envTest wTest =
      (.parserExit "too many arguments", tokenEvents envTest) ∧
     Event.call .masterGetExpirations ∉
       (doit ⟨"get-master-expirations", "r", ["x"]⟩ envTest wTest).2) ∧
    (doit ⟨"get-copy-expirations", "r", []⟩ envTest wTest =
      (.ret 0, tokenEvents envTest ++ .call .copyGetExpirations ::
        wTest.copyExpirations.map
          (fun pr => Event.print (pr.1 ++ ": " ++ pr.2.isoformat)))) ∧
    (doit ⟨"get-copy-expirations", "r", ["x"]⟩ envTest wTest =
      (.parserExit "too many arguments", tokenEvents envTest) ∧
     Event.call .copyGetExpirations ∉
       (doit ⟨"get-copy-expirations", "r", ["x"]⟩ envTest wTest).2) :=
  ⟨(C7_expirations_output "r" [] envTest wTest).1 rfl rfl,
   (C7_expirations_output "r" ["x"] envTest wTest).2.1 (by decide),
   (C7_expirations_output "r" [] envTest wTest).2.2.1 rfl rfl,
   (C7_expirations_output "r" ["x"] envTest wTest).2.2.2 (by decide)⟩

/-- C8: every event of a run that carries a progress argument carries a
callback (rather than None) exactly when DTUF_PROGRESS equals '1', or
DTUF_PROGRESS differs from '0' (including being unset) and stderr is a
terminal. -/
theorem C8_progress_gate (a : Args) (env : Env) (w : World) (e : Event)
    (q : Bool) (he : e ∈ (doit a env w).2) (hq : e.progressFlag = some q) :
    (q = true ↔
      (env "DTUF_PROGRESS" = some "1" ∨
        (env "DTUF_PROGRESS" ≠ some "0" ∧ w.stderrAtty = true))) := by
  have hq' : q = progressEnabled env w.stderrAtty := by
    by_cases ha : a.op = "auth"
    · rw [show (doit a env w).2 = (_doit a env w).trace from rfl] at he
      unfold _doit at he
      rw [if_pos ha] at he
      rcases hu : env "DTUF_USERNAME" with _ | u <;> rw [hu] at he <;>
        rcases hp : env "DTUF_PASSWORD" with _ | p <;> rw [hp] at he <;>
        simp at he
      rcases callThenPrints_mem _ _ _ _ he with rfl | hpr
      · simp [Event.progressFlag] at hq
      · split at hpr <;> simp at hpr
        subst hpr
        simp [Event.progressFlag] at hq
    · rw [show (doit a env w).2 = (_doit a env w).trace from rfl,
        _doit_not_auth a env w ha] at he
      rcases List.mem_append.mp he with h1 | h1
      · rw [tokenEvents_flag env e h1] at hq
        cases hq
      · exact dispatchOp_flags _ _ _ _ _ e h1 q hq
  rw [hq']
  exact progressEnabled_iff env w.stderrAtty

/-- C8 witness: with DTUF_PROGRESS='1' a concrete pull-metadata run passes a
progress callback. -/
theorem C8_progress_gate_witness :
    (true = true ↔
      (envTest "DTUF_PROGRESS" = some "1" ∨
        (envTest "DTUF_PROGRESS" ≠ some "0" ∧ wTest.stderrAtty = true))) :=
  C8_progress_gate ⟨"pull-metadata", "r", []⟩ envTest wTest
    (.call (.pullMetadata none true)) true (by decide) rfl

/-- C9: del-target, pull-target and blob-sizes with zero target arguments make
no repository call and return 0 (a silent no-op), while check-target with
zero arguments is rejected with a parser error. -/
theorem C9_zero_args_noop (repo : String) (env : Env) (w : World) :
    (∀ op ∈ (["del-target", "pull-target", "blob-sizes"] : List String),
      (doit ⟨op, repo, []⟩ env w).1 = .ret 0 ∧
      ∀ c : Call, Event.call c ∉ (doit ⟨op, repo, []⟩ env w).2) ∧
    (doit ⟨"check-target", repo, []⟩ env w).1 =
      .parserExit "too few arguments" := by
  refine ⟨?_, rfl⟩
  intro op hop
  simp at hop
  rcases hop with rfl | rfl | rfl
  · refine ⟨rfl, fun c hc => ?_⟩
    rw [show (doit ⟨"del-target", repo, []⟩ env w).2 = tokenEvents env ++ []
      from rfl, List.append_nil] at hc
    exact absurd hc (tokenEvents_no_call env c)
  · refine ⟨rfl, fun c hc => ?_⟩
    rw [show (doit ⟨"pull-target", repo, []⟩ env w).2 = tokenEvents env ++ []
      from rfl, List.append_nil] at hc
    exact absurd hc (tokenEvents_no_call env c)
  · refine ⟨rfl, fun c hc => ?_⟩
    rw [show (doit ⟨"blob-sizes", repo, []⟩ env w).2 = tokenEvents env ++ []
      from rfl, List.append_nil] at hc
    exact absurd hc (tokenEvents_no_call env c)

/-- C9 witness: a concrete zero-argument pull-target run returns 0 and makes
no repository call. -/
theorem C9_zero_args_noop_witness :
    (doit ⟨"pull-target", "r", []⟩ envTest wTest).1 = .ret 0 ∧
    ∀ c : Call, Event.call c ∉ (doit ⟨"pull-target", "r", []⟩ envTest wTest).2 :=
  (C9_zero_args_noop "r" envTest wTest).1 "pull-target" (by decide)

/-- C10: the auth subcommand calls `authenticate` with DTUF_USERNAME,
DTUF_PASSWORD and the positional arguments as actions, prints the token
exactly when it is non-empty and does nothing else — in particular DTUF_TOKEN
is never consulted; every other subcommand assigns a non-empty DTUF_TOKEN to
the repository object's token attribute before its operation runs. -/
theorem C10_auth_and_token (repo : String) (acts : List String)
    (env env2 : Env) (w : World) (a : Args) (u p t : String) :
    (env "DTUF_USERNAME" = some u → env "DTUF_PASSWORD" = some p →
      w.excAt (.authenticate u p acts) = none →
      doit ⟨"auth", repo, acts⟩ env w =
        (.ret 0, .call (.authenticate u p acts) ::
          (if w.authToken ≠ "" then [.print w.authToken] else []))) ∧
    ((∀ k, k ≠ "DTUF_TOKEN" → env k = env2 k) →
      _doit ⟨"auth", repo, acts⟩ env w = _doit ⟨"auth", repo, acts⟩ env2 w) ∧
    (a.op ≠ "auth" → env "DTUF_TOKEN" = some t → t ≠ "" →
      ∃ rest, (doit a env w).2 = .setToken t :: rest) := by
  refine ⟨?_, ?_, ?_⟩
  · intro hu hp hexc
    have hr : _doit ⟨"auth", repo, acts⟩ env w =
        callThenPrints w (.authenticate u p acts)
          (if w.authToken ≠ "" then [.print w.authToken] else []) := by
      unfold _doit
      rw [if_pos rfl, hu, hp]
    rw [show doit ⟨"auth", repo, acts⟩ env w =
      (handleErr (_doit ⟨"auth", repo, acts⟩ env w).err,
       (_doit ⟨"auth", repo, acts⟩ env w).trace) from rfl,
      hr, callThenPrints_of_none _ _ _ hexc]
    rfl
  · intro hagree
    unfold _doit
    rw [if_pos rfl, if_pos rfl,
      hagree "DTUF_USERNAME" (by decide), hagree "DTUF_PASSWORD" (by decide)]
  · intro ha ht htne
    rw [show (doit a env w).2 = (_doit a env w).trace from rfl,
      _doit_not_auth a env w ha]
    unfold prependEvents
    rw [tokenEvents_some env t ht htne]
    exact ⟨_, rfl⟩

/-- C10 witness: a concrete auth run with credentials prints the token and
never reads DTUF_TOKEN (removing the variable leaves the run unchanged), and
a concrete del-target run assigns the token first. -/
theorem C10_auth_and_token_witness :
    (doit ⟨"auth", "r", ["pull"]⟩ envTok wTest =
      (.ret 0, .call (.authenticate "u1" "p1" ["pull"]) ::
        (if wTest.authToken ≠ "" then [.print wTest.authToken] else []))) ∧
    (_doit ⟨"auth", "r", ["pull"]⟩ envTok wTest =
      _doit ⟨"auth", "r", ["pull"]⟩ envTok2 wTest) ∧
    (∃ rest, (doit ⟨"del-target", "r", []⟩ envTok wTest).2 =
      .setToken "tk" :: rest) := by
  have h := C10_auth_and_token "r" ["pull"] envTok envTok2 wTest
    ⟨"del-target", "r", []⟩ "u1" "p1" "tk"
  exact ⟨h.1 rfl rfl rfl,
    h.2.1 (fun k hk => by unfold envTok envTok2; rw [if_neg hk]),
    h.2.2 (by decide) rfl (by decide)⟩

end Dtuf
